import Mathlib

/-
Verification of the SRT timestamp fixer.

The development shallowly embeds the repository code over List Char.
Strings are lists of characters; the Python functions analyze_timestamp_format,
fix_timestamp_format, find_and_analyze_timestamp_line and process_srt_file are
translated to executable Lean functions.  The fixed regular expressions of the
source are compiled by hand into pattern-matching recognisers; the digit class
is modelled by the ASCII digits and the whitespace class by the ASCII
whitespace characters.
-/

namespace SrtFixer

/-- Whitespace as stripped by the Python strip method and matched by the
whitespace class of the regular expressions, modelled over the ASCII
whitespace characters: space, tab, newline, carriage return, vertical tab
and form feed. -/
def isPySpace (c : Char) : Bool :=
  decide (c = ' ' ∨ c = '\t' ∨ c = '\n' ∨ c = '\r' ∨
    c = Char.ofNat 11 ∨ c = Char.ofNat 12)

/-- The Python strip method with no arguments: remove leading and trailing
whitespace. -/
def pyStrip (s : List Char) : List Char :=
  (((s.dropWhile isPySpace).reverse).dropWhile isPySpace).reverse

/-- The rstrip call of the file pass, which removes only trailing newline and
carriage-return characters before a line is analysed. -/
def pyRstripNewline (s : List Char) : List Char :=
  (s.reverse.dropWhile (fun c => c == '\n' || c == '\r')).reverse

/-- Recogniser for the anchored full-format regular expression of the source:
exactly two digits, a colon, two digits, a colon, two digits, a comma and
exactly three digits. -/
def matchFull (s : List Char) : Bool :=
  match s with
  | [h1, h2, ':', m1, m2, ':', s1, s2, ',', x1, x2, x3] =>
      h1.isDigit && h2.isDigit && m1.isDigit && m2.isDigit &&
        s1.isDigit && s2.isDigit && x1.isDigit && x2.isDigit && x3.isDigit
  | _ => false

/-- Recogniser for the anchored short-format regular expression of the source:
one or two digits, a colon, two digits, a comma and three digits, returning
the three capture groups.  The greedy two-digit alternative and the one-digit
alternative are disjoint because the anchored forms have lengths nine and
eight. -/
def matchShort (s : List Char) : Option (List Char × List Char × List Char) :=
  match s with
  | [d1, d2, ':', s1, s2, ',', x1, x2, x3] =>
      if d1.isDigit && d2.isDigit && s1.isDigit && s2.isDigit &&
          x1.isDigit && x2.isDigit && x3.isDigit then
        some ([d1, d2], [s1, s2], [x1, x2, x3])
      else none
  | [d1, ':', s1, s2, ',', x1, x2, x3] =>
      if d1.isDigit && s1.isDigit && s2.isDigit &&
          x1.isDigit && x2.isDigit && x3.isDigit then
        some ([d1], [s1, s2], [x1, x2, x3])
      else none
  | _ => none

/-- The format strings stored by the source in the format detection field. -/
def fmtFull : List Char := "HH:MM:SS,mmm".toList

/-- The format string stored for the short hour-missing form. -/
def fmtShort : List Char := "MM:SS,mmm".toList

/-- The format string stored for unrecognised timestamps. -/
def fmtUnknown : List Char := "unknown".toList

/-- Result record of analyze_timestamp_format.  The source initialises the
format field to None and always overwrites it, so the record stores the final
value directly. -/
structure TimestampAnalysis where
  original : List Char
  cleaned : List Char
  is_valid_srt : Bool
  has_hours : Bool
  format_detected : List Char
  needs_fixing : Bool
deriving Repr, DecidableEq

/-- Translation of analyze_timestamp_format of convert_to_srt.py. -/
def analyze_timestamp_format (timestamp : List Char) : TimestampAnalysis :=
  let clean := pyStrip timestamp
  if matchFull clean then
    { original := timestamp, cleaned := clean, is_valid_srt := true,
      has_hours := true, format_detected := fmtFull, needs_fixing := false }
  else
    match matchShort clean with
    | some _ =>
        { original := timestamp, cleaned := clean, is_valid_srt := false,
          has_hours := false, format_detected := fmtShort, needs_fixing := true }
    | none =>
        { original := timestamp, cleaned := clean, is_valid_srt := false,
          has_hours := false, format_detected := fmtUnknown, needs_fixing := true }

/-- The Python format specifier that left-pads the minutes with the zero digit
to a width of two characters. -/
def padZero2 (m : List Char) : List Char :=
  if m.length < 2 then List.replicate (2 - m.length) '0' ++ m else m

/-- Translation of fix_timestamp_format of convert_to_srt.py. -/
def fix_timestamp_format (timestamp : List Char) : List Char :=
  let clean := pyStrip timestamp
  match matchShort clean with
  | some (minutes, seconds, milliseconds) =>
      '0' :: '0' :: ':' :: (padZero2 minutes ++ ':' :: (seconds ++ ',' :: milliseconds))
  | none => clean

/-- Containment test for the arrow separator, the Python in operator on the
three-character arrow string. -/
def hasArrow : List Char → Bool
  | '-' :: '-' :: '>' :: _ => true
  | _ :: rest => hasArrow rest
  | [] => false

/-- Worker for the Python split method on the arrow string: cut at every
non-overlapping occurrence, scanning left to right. -/
def splitArrowAux : List Char → List Char → List (List Char)
  | '-' :: '-' :: '>' :: rest, acc => acc.reverse :: splitArrowAux rest []
  | c :: rest, acc => splitArrowAux rest (c :: acc)
  | [], acc => [acc.reverse]

/-- The Python split method on the arrow string. -/
def pySplitArrow (s : List Char) : List (List Char) :=
  splitArrowAux s []

/-- The separator inserted between the two repaired sides of a fixed line. -/
def arrowSep : List Char := " --> ".toList

/-- Unanchored matcher for one short-form token of the missing-arrow regular
expression, at a fixed start position: one or two digits, a colon, two digits,
a comma, three digits, returning the matched token and the remainder.  The
one-digit and the greedy two-digit alternatives of the engine are separated by
the second character, a colon for the first and a digit for the second, so the
dispatch on that character reproduces the backtracking behaviour: when the
alternative selected by the second character fails later, the other
alternative is impossible at the same start position. -/
def tokenAt : List Char → Option (List Char × List Char)
  | d1 :: c2 :: rest =>
      if d1.isDigit then
        if c2 == ':' then
          match rest with
          | s1 :: s2 :: ',' :: x1 :: x2 :: x3 :: r =>
              if s1.isDigit && s2.isDigit && x1.isDigit && x2.isDigit && x3.isDigit then
                some ([d1, ':', s1, s2, ',', x1, x2, x3], r)
              else none
          | _ => none
        else if c2.isDigit then
          match rest with
          | ':' :: s1 :: s2 :: ',' :: x1 :: x2 :: x3 :: r =>
              if s1.isDigit && s2.isDigit && x1.isDigit && x2.isDigit && x3.isDigit then
                some ([d1, c2, ':', s1, s2, ',', x1, x2, x3], r)
              else none
          | _ => none
        else none
      else none
  | _ => none

/-- Attempt of the missing-arrow pair pattern at a fixed start position: a
short-form token, one or more whitespace characters, and a second short-form
token.  The second token must begin at the first non-whitespace character
after the run, because a shorter whitespace run would leave a whitespace
character where a digit is required. -/
def pairAt (s : List Char) : Option (List Char × List Char) :=
  match tokenAt s with
  | none => none
  | some (t1, rest) =>
      if (rest.takeWhile isPySpace).isEmpty then none
      else
        match tokenAt (rest.dropWhile isPySpace) with
        | some (t2, _) => some (t1, t2)
        | none => none

/-- The search of the regular expression engine for the missing-arrow pair
pattern: start positions are tried left to right and the first successful
attempt wins. -/
def searchPair : List Char → Option (List Char × List Char)
  | [] => none
  | c :: cs =>
      match pairAt (c :: cs) with
      | some p => some p
      | none => searchPair cs

/-- Result record of find_and_analyze_timestamp_line. -/
structure LineAnalysis where
  original_line : List Char
  is_timestamp_line : Bool
  has_arrow : Bool
  left_timestamp : Option (List Char)
  right_timestamp : Option (List Char)
  left_analysis : Option TimestampAnalysis
  right_analysis : Option TimestampAnalysis
  needs_fixing : Bool
  fixed_line : Option (List Char)
deriving Repr, DecidableEq

/-- Translation of find_and_analyze_timestamp_line of convert_to_srt.py.
The first branch fires when the line contains the arrow; the second when the
missing-arrow search succeeds.  The source performs the search twice, once as
the branch guard and once to extract the groups, which is mirrored here by the
guard on the search result followed by a match on the same result. -/
def find_and_analyze_timestamp_line (line : List Char) : LineAnalysis :=
  if hasArrow line then
    match pySplitArrow line with
    | [l, r] =>
        let left_part := pyStrip l
        let right_part := pyStrip r
        let la := analyze_timestamp_format left_part
        let ra := analyze_timestamp_format right_part
        if la.needs_fixing || ra.needs_fixing then
          { original_line := line, is_timestamp_line := true, has_arrow := true,
            left_timestamp := some left_part, right_timestamp := some right_part,
            left_analysis := some la, right_analysis := some ra,
            needs_fixing := true,
            fixed_line := some (fix_timestamp_format left_part ++ arrowSep ++
              fix_timestamp_format right_part) }
        else
          { original_line := line, is_timestamp_line := true, has_arrow := true,
            left_timestamp := some left_part, right_timestamp := some right_part,
            left_analysis := some la, right_analysis := some ra,
            needs_fixing := false, fixed_line := none }
    | _ =>
        { original_line := line, is_timestamp_line := true, has_arrow := true,
          left_timestamp := none, right_timestamp := none,
          left_analysis := none, right_analysis := none,
          needs_fixing := false, fixed_line := none }
  else if (searchPair line).isSome then
    match searchPair line with
    | some (left_part, right_part) =>
        { original_line := line, is_timestamp_line := true, has_arrow := false,
          left_timestamp := some left_part, right_timestamp := some right_part,
          left_analysis := some (analyze_timestamp_format left_part),
          right_analysis := some (analyze_timestamp_format right_part),
          needs_fixing := true,
          fixed_line := some (fix_timestamp_format left_part ++ arrowSep ++
            fix_timestamp_format right_part) }
    | none =>
        { original_line := line, is_timestamp_line := true, has_arrow := false,
          left_timestamp := none, right_timestamp := none,
          left_analysis := none, right_analysis := none,
          needs_fixing := true, fixed_line := none }
  else
    { original_line := line, is_timestamp_line := false, has_arrow := false,
      left_timestamp := none, right_timestamp := none,
      left_analysis := none, right_analysis := none,
      needs_fixing := false, fixed_line := none }

/-- Statistics record of process_srt_file. -/
structure ProcessingStats where
  total_lines : Nat
  timestamp_lines_found : Nat
  timestamp_lines_fixed : Nat
  issues_found : List (List Char)
  fixes_applied : List (List Char)
deriving Repr, DecidableEq

/-- The single-quote character used by the report strings of the file pass. -/
def squote : Char := Char.ofNat 39

/-- Decimal rendering of a line number, as the Python string conversion. -/
def natToDec (n : Nat) : List Char := Nat.toDigits 10 n

/-- The issue description built by process_srt_file for a line that needs
fixing: the line number, the stripped original text, and markers for a missing
arrow and for each side whose analysis needs fixing. -/
def issueDesc (lineNum : Nat) (a : LineAnalysis) : List Char :=
  let base := "Line ".toList ++ natToDec lineNum ++ ": ".toList ++
    [squote] ++ pyStrip a.original_line ++ [squote]
  let base := if a.has_arrow then base else base ++ " (missing arrow)".toList
  let base :=
    match a.left_analysis with
    | some la =>
        if la.needs_fixing then
          base ++ " (left timestamp: ".toList ++ la.format_detected ++ [')']
        else base
    | none => base
  match a.right_analysis with
  | some ra =>
      if ra.needs_fixing then
        base ++ " (right timestamp: ".toList ++ ra.format_detected ++ [')']
      else base
  | none => base

/-- The Python string conversion of an optional fixed line inside the fix
description. -/
def optionText : Option (List Char) → List Char
  | some f => f
  | none => "None".toList

/-- The fix description built by process_srt_file for a line that was
rewritten. -/
def fixDesc (lineNum : Nat) (a : LineAnalysis) : List Char :=
  "Line ".toList ++ natToDec lineNum ++ ": Fixed to ".toList ++
    [squote] ++ optionText a.fixed_line ++ [squote]

/-- The line emitted for an analysis that needs fixing: the fixed text with a
single newline appended.  The none case never occurs, as proved below; there
the Python source would raise a type error when concatenating. -/
def emitFixed (a : LineAnalysis) : List Char :=
  match a.fixed_line with
  | some f => f ++ ['\n']
  | none => []

/-- The line emitted by the file pass for one raw input line. -/
def emitLine (raw : List Char) : List Char :=
  let a := find_and_analyze_timestamp_line (pyRstripNewline raw)
  if a.is_timestamp_line then
    if a.needs_fixing then emitFixed a else raw
  else raw

/-- The loop of process_srt_file: lines are enumerated starting at one, each
is analysed after its trailing newline characters are removed, timestamp lines
are counted, lines that need fixing are rewritten and reported, and all other
lines are kept as they are. -/
def processLinesAux : Nat → List (List Char) → ProcessingStats →
    List (List Char) × ProcessingStats
  | _, [], stats => ([], stats)
  | lineNum, line :: rest, stats =>
      let a := find_and_analyze_timestamp_line (pyRstripNewline line)
      if a.is_timestamp_line then
        if a.needs_fixing then
          let stats' : ProcessingStats :=
            { stats with
              timestamp_lines_found := stats.timestamp_lines_found + 1,
              timestamp_lines_fixed := stats.timestamp_lines_fixed + 1,
              issues_found := stats.issues_found ++ [issueDesc lineNum a],
              fixes_applied := stats.fixes_applied ++ [fixDesc lineNum a] }
          let res := processLinesAux (lineNum + 1) rest stats'
          (emitFixed a :: res.1, res.2)
        else
          let stats' : ProcessingStats :=
            { stats with timestamp_lines_found := stats.timestamp_lines_found + 1 }
          let res := processLinesAux (lineNum + 1) rest stats'
          (line :: res.1, res.2)
      else
        let res := processLinesAux (lineNum + 1) rest stats
        (line :: res.1, res.2)

/-- Translation of process_srt_file of convert_to_srt.py over an in-memory
sequence of lines: the file reading and writing of the source are the
responsibility of the caller. -/
def process_srt_file (lines : List (List Char)) : List (List Char) × ProcessingStats :=
  processLinesAux 1 lines
    { total_lines := lines.length, timestamp_lines_found := 0,
      timestamp_lines_fixed := 0, issues_found := [], fixes_applied := [] }

namespace WebApp

/-- Copy of the analyzer carried by the SRTProcessor class of srt_fixer_web.py. -/
def analyze_timestamp_format (timestamp : List Char) : TimestampAnalysis :=
  let clean := pyStrip timestamp
  if matchFull clean then
    { original := timestamp, cleaned := clean, is_valid_srt := true,
      has_hours := true, format_detected := fmtFull, needs_fixing := false }
  else
    match matchShort clean with
    | some _ =>
        { original := timestamp, cleaned := clean, is_valid_srt := false,
          has_hours := false, format_detected := fmtShort, needs_fixing := true }
    | none =>
        { original := timestamp, cleaned := clean, is_valid_srt := false,
          has_hours := false, format_detected := fmtUnknown, needs_fixing := true }

/-- Copy of the repair function of srt_fixer_web.py. -/
def fix_timestamp_format (timestamp : List Char) : List Char :=
  let clean := pyStrip timestamp
  match matchShort clean with
  | some (minutes, seconds, milliseconds) =>
      '0' :: '0' :: ':' :: (padZero2 minutes ++ ':' :: (seconds ++ ',' :: milliseconds))
  | none => clean

/-- Copy of the line analyser of srt_fixer_web.py. -/
def find_and_analyze_timestamp_line (line : List Char) : LineAnalysis :=
  if hasArrow line then
    match pySplitArrow line with
    | [l, r] =>
        let left_part := pyStrip l
        let right_part := pyStrip r
        let la := analyze_timestamp_format left_part
        let ra := analyze_timestamp_format right_part
        if la.needs_fixing || ra.needs_fixing then
          { original_line := line, is_timestamp_line := true, has_arrow := true,
            left_timestamp := some left_part, right_timestamp := some right_part,
            left_analysis := some la, right_analysis := some ra,
            needs_fixing := true,
            fixed_line := some (fix_timestamp_format left_part ++ arrowSep ++
              fix_timestamp_format right_part) }
        else
          { original_line := line, is_timestamp_line := true, has_arrow := true,
            left_timestamp := some left_part, right_timestamp := some right_part,
            left_analysis := some la, right_analysis := some ra,
            needs_fixing := false, fixed_line := none }
    | _ =>
        { original_line := line, is_timestamp_line := true, has_arrow := true,
          left_timestamp := none, right_timestamp := none,
          left_analysis := none, right_analysis := none,
          needs_fixing := false, fixed_line := none }
  else if (searchPair line).isSome then
    match searchPair line with
    | some (left_part, right_part) =>
        { original_line := line, is_timestamp_line := true, has_arrow := false,
          left_timestamp := some left_part, right_timestamp := some right_part,
          left_analysis := some (analyze_timestamp_format left_part),
          right_analysis := some (analyze_timestamp_format right_part),
          needs_fixing := true,
          fixed_line := some (fix_timestamp_format left_part ++ arrowSep ++
            fix_timestamp_format right_part) }
    | none =>
        { original_line := line, is_timestamp_line := true, has_arrow := false,
          left_timestamp := none, right_timestamp := none,
          left_analysis := none, right_analysis := none,
          needs_fixing := true, fixed_line := none }
  else
    { original_line := line, is_timestamp_line := false, has_arrow := false,
      left_timestamp := none, right_timestamp := none,
      left_analysis := none, right_analysis := none,
      needs_fixing := false, fixed_line := none }

end WebApp

namespace GuiApp

/-- Copy of the analyzer carried by srt_fixer_gui.py. -/
def analyze_timestamp_format (timestamp : List Char) : TimestampAnalysis :=
  let clean := pyStrip timestamp
  if matchFull clean then
    { original := timestamp, cleaned := clean, is_valid_srt := true,
      has_hours := true, format_detected := fmtFull, needs_fixing := false }
  else
    match matchShort clean with
    | some _ =>
        { original := timestamp, cleaned := clean, is_valid_srt := false,
          has_hours := false, format_detected := fmtShort, needs_fixing := true }
    | none =>
        { original := timestamp, cleaned := clean, is_valid_srt := false,
          has_hours := false, format_detected := fmtUnknown, needs_fixing := true }

/-- Copy of the repair function of srt_fixer_gui.py. -/
def fix_timestamp_format (timestamp : List Char) : List Char :=
  let clean := pyStrip timestamp
  match matchShort clean with
  | some (minutes, seconds, milliseconds) =>
      '0' :: '0' :: ':' :: (padZero2 minutes ++ ':' :: (seconds ++ ',' :: milliseconds))
  | none => clean

/-- Copy of the line analyser of srt_fixer_gui.py. -/
def find_and_analyze_timestamp_line (line : List Char) : LineAnalysis :=
  if hasArrow line then
    match pySplitArrow line with
    | [l, r] =>
        let left_part := pyStrip l
        let right_part := pyStrip r
        let la := analyze_timestamp_format left_part
        let ra := analyze_timestamp_format right_part
        if la.needs_fixing || ra.needs_fixing then
          { original_line := line, is_timestamp_line := true, has_arrow := true,
            left_timestamp := some left_part, right_timestamp := some right_part,
            left_analysis := some la, right_analysis := some ra,
            needs_fixing := true,
            fixed_line := some (fix_timestamp_format left_part ++ arrowSep ++
              fix_timestamp_format right_part) }
        else
          { original_line := line, is_timestamp_line := true, has_arrow := true,
            left_timestamp := some left_part, right_timestamp := some right_part,
            left_analysis := some la, right_analysis := some ra,
            needs_fixing := false, fixed_line := none }
    | _ =>
        { original_line := line, is_timestamp_line := true, has_arrow := true,
          left_timestamp := none, right_timestamp := none,
          left_analysis := none, right_analysis := none,
          needs_fixing := false, fixed_line := none }
  else if (searchPair line).isSome then
    match searchPair line with
    | some (left_part, right_part) =>
        { original_line := line, is_timestamp_line := true, has_arrow := false,
          left_timestamp := some left_part, right_timestamp := some right_part,
          left_analysis := some (analyze_timestamp_format left_part),
          right_analysis := some (analyze_timestamp_format right_part),
          needs_fixing := true,
          fixed_line := some (fix_timestamp_format left_part ++ arrowSep ++
            fix_timestamp_format right_part) }
    | none =>
        { original_line := line, is_timestamp_line := true, has_arrow := false,
          left_timestamp := none, right_timestamp := none,
          left_analysis := none, right_analysis := none,
          needs_fixing := true, fixed_line := none }
  else
    { original_line := line, is_timestamp_line := false, has_arrow := false,
      left_timestamp := none, right_timestamp := none,
      left_analysis := none, right_analysis := none,
      needs_fixing := false, fixed_line := none }

end GuiApp

namespace ModernApp

/-- Copy of the analyzer carried by srt_fixer_modern.py. -/
def analyze_timestamp_format (timestamp : List Char) : TimestampAnalysis :=
  let clean := pyStrip timestamp
  if matchFull clean then
    { original := timestamp, cleaned := clean, is_valid_srt := true,
      has_hours := true, format_detected := fmtFull, needs_fixing := false }
  else
    match matchShort clean with
    | some _ =>
        { original := timestamp, cleaned := clean, is_valid_srt := false,
          has_hours := false, format_detected := fmtShort, needs_fixing := true }
    | none =>
        { original := timestamp, cleaned := clean, is_valid_srt := false,
          has_hours := false, format_detected := fmtUnknown, needs_fixing := true }

/-- Copy of the repair function of srt_fixer_modern.py. -/
def fix_timestamp_format (timestamp : List Char) : List Char :=
  let clean := pyStrip timestamp
  match matchShort clean with
  | some (minutes, seconds, milliseconds) =>
      '0' :: '0' :: ':' :: (padZero2 minutes ++ ':' :: (seconds ++ ',' :: milliseconds))
  | none => clean

/-- Copy of the line analyser of srt_fixer_modern.py. -/
def find_and_analyze_timestamp_line (line : List Char) : LineAnalysis :=
  if hasArrow line then
    match pySplitArrow line with
    | [l, r] =>
        let left_part := pyStrip l
        let right_part := pyStrip r
        let la := analyze_timestamp_format left_part
        let ra := analyze_timestamp_format right_part
        if la.needs_fixing || ra.needs_fixing then
          { original_line := line, is_timestamp_line := true, has_arrow := true,
            left_timestamp := some left_part, right_timestamp := some right_part,
            left_analysis := some la, right_analysis := some ra,
            needs_fixing := true,
            fixed_line := some (fix_timestamp_format left_part ++ arrowSep ++
              fix_timestamp_format right_part) }
        else
          { original_line := line, is_timestamp_line := true, has_arrow := true,
            left_timestamp := some left_part, right_timestamp := some right_part,
            left_analysis := some la, right_analysis := some ra,
            needs_fixing := false, fixed_line := none }
    | _ =>
        { original_line := line, is_timestamp_line := true, has_arrow := true,
          left_timestamp := none, right_timestamp := none,
          left_analysis := none, right_analysis := none,
          needs_fixing := false, fixed_line := none }
  else if (searchPair line).isSome then
    match searchPair line with
    | some (left_part, right_part) =>
        { original_line := line, is_timestamp_line := true, has_arrow := false,
          left_timestamp := some left_part, right_timestamp := some right_part,
          left_analysis := some (analyze_timestamp_format left_part),
          right_analysis := some (analyze_timestamp_format right_part),
          needs_fixing := true,
          fixed_line := some (fix_timestamp_format left_part ++ arrowSep ++
            fix_timestamp_format right_part) }
    | none =>
        { original_line := line, is_timestamp_line := true, has_arrow := false,
          left_timestamp := none, right_timestamp := none,
          left_analysis := none, right_analysis := none,
          needs_fixing := true, fixed_line := none }
  else
    { original_line := line, is_timestamp_line := false, has_arrow := false,
      left_timestamp := none, right_timestamp := none,
      left_analysis := none, right_analysis := none,
      needs_fixing := false, fixed_line := none }

end ModernApp

/-- Result record of analyze_single_timestamp of step_by_step_fixer.py. -/
structure SbsAnalysis where
  format : List Char
  valid : Bool
  needs_fixing : Bool
  has_hours : Bool
deriving Repr, DecidableEq

/-- Translation of analyze_single_timestamp of step_by_step_fixer.py. -/
def analyze_single_timestamp (timestamp : List Char) : SbsAnalysis :=
  let t := pyStrip timestamp
  if matchFull t then
    { format := fmtFull, valid := true, needs_fixing := false, has_hours := true }
  else
    match matchShort t with
    | some _ =>
        { format := fmtShort, valid := false, needs_fixing := true, has_hours := false }
    | none =>
        { format := fmtUnknown, valid := false, needs_fixing := true, has_hours := false }

/-- Translation of fix_single_timestamp of step_by_step_fixer.py. -/
def fix_single_timestamp (timestamp : List Char) : List Char :=
  let t := pyStrip timestamp
  match matchShort t with
  | some (minutes, seconds, milliseconds) =>
      '0' :: '0' :: ':' :: (padZero2 minutes ++ ':' :: (seconds ++ ',' :: milliseconds))
  | none => t

/-- The fixed line the step-by-step demo script computes for one input line.
Step one of the script selects only lines containing the arrow and records
their stripped text; steps two and three split the stripped line on the arrow,
strip both sides, repair each side whose analysis needs fixing and join the
results with the arrow.  A line with no arrow is never selected, and a line
whose split has more or fewer than two pieces makes the tuple unpacking of
step two raise; both cases yield no fixed line here.  The demo script has no
branch for whitespace-separated timestamp pairs without an arrow. -/
def sbsFixedLine (line : List Char) : Option (List Char) :=
  if hasArrow line then
    match pySplitArrow (pyStrip line) with
    | [lp, rp] =>
        let lt := pyStrip lp
        let rt := pyStrip rp
        let fl := if (analyze_single_timestamp lt).needs_fixing
          then fix_single_timestamp lt else lt
        let fr := if (analyze_single_timestamp rt).needs_fixing
          then fix_single_timestamp rt else rt
        some (fl ++ arrowSep ++ fr)
    | _ => none
  else none

/-- Spec-level shape of a fully qualified timestamp: exactly two digits for
hours, two for minutes, two for seconds, a comma, exactly three digits for
milliseconds. -/
def FullShape (c : List Char) : Prop :=
  ∃ hh mm ss ms : List Char,
    hh.length = 2 ∧ mm.length = 2 ∧ ss.length = 2 ∧ ms.length = 3 ∧
    (∀ x ∈ hh, x.isDigit = true) ∧ (∀ x ∈ mm, x.isDigit = true) ∧
    (∀ x ∈ ss, x.isDigit = true) ∧ (∀ x ∈ ms, x.isDigit = true) ∧
    c = hh ++ ':' :: (mm ++ ':' :: (ss ++ ',' :: ms))

/-- Spec-level decomposition of an hour-missing timestamp: one or two digits
for minutes, exactly two digits for seconds, a comma, exactly three digits for
milliseconds, with the three capture groups made explicit. -/
def ShortDecomp (c m sec ms : List Char) : Prop :=
  (m.length = 1 ∨ m.length = 2) ∧ sec.length = 2 ∧ ms.length = 3 ∧
    (∀ x ∈ m, x.isDigit = true) ∧ (∀ x ∈ sec, x.isDigit = true) ∧
    (∀ x ∈ ms, x.isDigit = true) ∧
    c = m ++ ':' :: (sec ++ ',' :: ms)

/-- Spec-level shape of an hour-missing timestamp. -/
def ShortShape (c : List Char) : Prop :=
  ∃ m sec ms, ShortDecomp c m sec ms

/-- Spec-level condition for the missing-arrow branch: the line contains two
hour-missing-form tokens separated by one or more whitespace characters. -/
def PairExists (line : List Char) : Prop :=
  ∃ pre t1 sp t2 post : List Char,
    ShortShape t1 ∧ ShortShape t2 ∧ sp ≠ [] ∧
      (∀ c ∈ sp, isPySpace c = true) ∧
      line = pre ++ t1 ++ sp ++ t2 ++ post

lemma digit_not_space {c : Char} (h : c.isDigit = true) : isPySpace c = false := by
  cases hb : isPySpace c
  · rfl
  · exfalso
    simp only [isPySpace, decide_eq_true_eq] at hb
    rcases hb with h1 | h1 | h1 | h1 | h1 | h1 <;> subst h1 <;>
      exact absurd h (by decide)

lemma dropWhile_idem (p : Char → Bool) (l : List Char) :
    (l.dropWhile p).dropWhile p = l.dropWhile p := by
  induction l with
  | nil => rfl
  | cons a l ih =>
      by_cases hp : p a = true
      · simp [List.dropWhile_cons, hp, ih]
      · simp [List.dropWhile_cons, hp]

lemma head?_dropWhile_false (p : Char → Bool) (l : List Char) :
    ∀ c, (l.dropWhile p).head? = some c → p c = false := by
  induction l with
  | nil => intro c h; simp at h
  | cons a l ih =>
      intro c h
      by_cases hp : p a = true
      · rw [List.dropWhile_cons, if_pos hp] at h
        exact ih c h
      · rw [List.dropWhile_cons, if_neg hp] at h
        simp at h
        subst h
        simp [hp]

lemma dropWhile_eq_self_of (p : Char → Bool) (l : List Char)
    (h : ∀ c ∈ l, p c = false) : l.dropWhile p = l := by
  cases l with
  | nil => rfl
  | cons a l => rw [List.dropWhile_cons, if_neg]; simp [h a (by simp)]

lemma exists_prefix_dropWhile (p : Char → Bool) (l : List Char) :
    ∃ u, l = u ++ l.dropWhile p := by
  induction l with
  | nil => exact ⟨[], rfl⟩
  | cons a l ih =>
      by_cases hp : p a = true
      · obtain ⟨u, hu⟩ := ih
        exact ⟨a :: u, by rw [List.dropWhile_cons, if_pos hp]; simpa using hu⟩
      · exact ⟨[], by rw [List.dropWhile_cons, if_neg hp]; rfl⟩

lemma rev_drop_rev_idem (p : Char → Bool) (l : List Char) :
    ((((l.reverse.dropWhile p).reverse).reverse.dropWhile p).reverse) =
      (l.reverse.dropWhile p).reverse := by
  rw [List.reverse_reverse, dropWhile_idem]

lemma rev_drop_rev_sub (p : Char → Bool) (l : List Char) :
    ∃ u, l = (l.reverse.dropWhile p).reverse ++ u := by
  obtain ⟨w, hw⟩ := exists_prefix_dropWhile p l.reverse
  refine ⟨w.reverse, ?_⟩
  have h2 := congrArg List.reverse hw
  simpa [List.reverse_append] using h2

lemma head?_pyStrip (s : List Char) (h : pyStrip s ≠ []) :
    (pyStrip s).head? = (s.dropWhile isPySpace).head? := by
  obtain ⟨u, hu⟩ := rev_drop_rev_sub isPySpace (s.dropWhile isPySpace)
  calc (pyStrip s).head?
      = ((pyStrip s) ++ u).head? := (List.head?_append_of_ne_nil _ h).symm
    _ = (s.dropWhile isPySpace).head? := by unfold pyStrip; rw [← hu]

lemma pyStrip_idem (s : List Char) : pyStrip (pyStrip s) = pyStrip s := by
  have hF : (pyStrip s).dropWhile isPySpace = pyStrip s := by
    cases ht : pyStrip s with
    | nil => rfl
    | cons a t' =>
        have hne : pyStrip s ≠ [] := by rw [ht]; simp
        have h2 : (s.dropWhile isPySpace).head? = some a := by
          rw [← head?_pyStrip s hne, ht]; rfl
        have h3 : isPySpace a = false := head?_dropWhile_false _ s a h2
        rw [List.dropWhile_cons, if_neg (by simp [h3])]
  show (((pyStrip s).dropWhile isPySpace).reverse.dropWhile isPySpace).reverse = pyStrip s
  rw [hF]
  exact rev_drop_rev_idem isPySpace (s.dropWhile isPySpace)

lemma pyStrip_eq_self (s : List Char) (h : ∀ c ∈ s, isPySpace c = false) :
    pyStrip s = s := by
  unfold pyStrip
  rw [dropWhile_eq_self_of _ _ h, dropWhile_eq_self_of, List.reverse_reverse]
  intro c hc
  exact h c (by simpa using hc)

lemma matchFull_iff {c : List Char} : matchFull c = true ↔ FullShape c := by
  constructor
  · intro h
    unfold matchFull at h
    split at h
    next h1 h2 m1 m2 s1 s2 x1 x2 x3 =>
      simp only [Bool.and_eq_true] at h
      obtain ⟨⟨⟨⟨⟨⟨⟨⟨d1, d2⟩, d3⟩, d4⟩, d5⟩, d6⟩, d7⟩, d8⟩, d9⟩ := h
      exact ⟨[h1, h2], [m1, m2], [s1, s2], [x1, x2, x3], rfl, rfl, rfl, rfl,
        by simp [d1, d2], by simp [d3, d4], by simp [d5, d6], by simp [d7, d8, d9], rfl⟩
    next => simp at h
  · rintro ⟨hh, mm, ss, ms, hhh, hmm2, hss, hms, dh, dm, ds, dx, rfl⟩
    obtain ⟨a, b, rfl⟩ := List.length_eq_two.mp hhh
    obtain ⟨d, e, rfl⟩ := List.length_eq_two.mp hmm2
    obtain ⟨f, g, rfl⟩ := List.length_eq_two.mp hss
    obtain ⟨i, j, k, rfl⟩ := List.length_eq_three.mp hms
    simp only [List.mem_cons, List.not_mem_nil, or_false, forall_eq_or_imp, forall_eq] at dh dm ds dx
    show matchFull [a, b, ':', d, e, ':', f, g, ',', i, j, k] = true
    simp [matchFull, dh.1, dh.2, dm.1, dm.2, ds.1, ds.2, dx.1, dx.2.1, dx.2.2]

lemma matchShort_eq_some_iff {c m sec ms : List Char} :
    matchShort c = some (m, sec, ms) ↔ ShortDecomp c m sec ms := by
  constructor
  · intro h
    unfold matchShort at h
    split at h
    next d1 d2 s1 s2 x1 x2 x3 =>
      split at h
      · next hg =>
          simp only [Bool.and_eq_true] at hg
          obtain ⟨⟨⟨⟨⟨⟨g1, g2⟩, g3⟩, g4⟩, g5⟩, g6⟩, g7⟩ := hg
          simp only [Option.some.injEq, Prod.mk.injEq] at h
          obtain ⟨hm, hsec, hms⟩ := h
          subst hm; subst hsec; subst hms
          exact ⟨Or.inr rfl, rfl, rfl, by simp [g1, g2], by simp [g3, g4],
            by simp [g5, g6, g7], rfl⟩
      · simp at h
    next d1 s1 s2 x1 x2 x3 =>
      split at h
      · next hg =>
          simp only [Bool.and_eq_true] at hg
          obtain ⟨⟨⟨⟨⟨g1, g3⟩, g4⟩, g5⟩, g6⟩, g7⟩ := hg
          simp only [Option.some.injEq, Prod.mk.injEq] at h
          obtain ⟨hm, hsec, hms⟩ := h
          subst hm; subst hsec; subst hms
          exact ⟨Or.inl rfl, rfl, rfl, by simp [g1], by simp [g3, g4],
            by simp [g5, g6, g7], rfl⟩
      · simp at h
    next => simp at h
  · rintro ⟨hlen, hsec, hms, dm, ds, dx, rfl⟩
    obtain ⟨d, e, rfl⟩ := List.length_eq_two.mp hsec
    obtain ⟨i, j, k, rfl⟩ := List.length_eq_three.mp hms
    simp only [List.mem_cons, List.not_mem_nil, or_false, forall_eq_or_imp, forall_eq] at ds dx
    rcases hlen with h1 | h2
    · obtain ⟨a, rfl⟩ := List.length_eq_one.mp h1
      simp only [List.mem_cons, List.not_mem_nil, or_false, forall_eq] at dm
      show matchShort [a, ':', d, e, ',', i, j, k] = some ([a], [d, e], [i, j, k])
      simp [matchShort, dm, ds.1, ds.2, dx.1, dx.2.1, dx.2.2]
    · obtain ⟨a, b, rfl⟩ := List.length_eq_two.mp h2
      simp only [List.mem_cons, List.not_mem_nil, or_false, forall_eq_or_imp, forall_eq] at dm
      show matchShort [a, b, ':', d, e, ',', i, j, k] = some ([a, b], [d, e], [i, j, k])
      simp [matchShort, dm.1, dm.2, ds.1, ds.2, dx.1, dx.2.1, dx.2.2]

lemma matchShort_isSome_iff {c : List Char} :
    (matchShort c).isSome = true ↔ ShortShape c := by
  constructor
  · intro h
    obtain ⟨⟨m, sec, ms⟩, hm⟩ := Option.isSome_iff_exists.mp h
    exact ⟨m, sec, ms, matchShort_eq_some_iff.mp hm⟩
  · rintro ⟨m, sec, ms, hd⟩
    rw [matchShort_eq_some_iff.mpr hd]
    rfl

lemma shortDecomp_length {c m sec ms : List Char} (h : ShortDecomp c m sec ms) :
    c.length = 8 ∨ c.length = 9 := by
  obtain ⟨hlen, hsec, hms, -, -, -, rfl⟩ := h
  rcases hlen with h1 | h1 <;> simp [List.length_append, h1, hsec, hms]

lemma fullShape_length {c : List Char} (h : FullShape c) : c.length = 12 := by
  obtain ⟨hh, mm, ss, ms, h1, h2, h3, h4, -, -, -, -, rfl⟩ := h
  simp [List.length_append, h1, h2, h3, h4]

lemma matchFull_false_of_short {c m sec ms : List Char} (h : ShortDecomp c m sec ms) :
    matchFull c = false := by
  cases hb : matchFull c
  · rfl
  · have := fullShape_length (matchFull_iff.mp hb)
    rcases shortDecomp_length h with h1 | h1 <;> omega

lemma matchShort_none_of_len {c : List Char} (h8 : c.length ≠ 8) (h9 : c.length ≠ 9) :
    matchShort c = none := by
  cases hb : matchShort c with
  | none => rfl
  | some p =>
      obtain ⟨m, sec, ms⟩ := p
      rcases shortDecomp_length (matchShort_eq_some_iff.mp hb) with h1 | h1 <;> omega

lemma ShortDecomp.noSpace {c m sec ms : List Char} (h : ShortDecomp c m sec ms) :
    ∀ x ∈ c, isPySpace x = false := by
  obtain ⟨hlen, hsec, hms, dm, ds, dx, rfl⟩ := h
  intro x hx
  simp only [List.mem_append, List.mem_cons] at hx
  rcases hx with hx | hx | hx
  · exact digit_not_space (dm x hx)
  · subst hx; decide
  · rcases hx with hx | hx | hx
    · exact digit_not_space (ds x hx)
    · subst hx; decide
    · exact digit_not_space (dx x hx)

lemma analyze_cases (t : List Char) :
    (matchFull (pyStrip t) = true ∧ analyze_timestamp_format t =
      { original := t, cleaned := pyStrip t, is_valid_srt := true,
        has_hours := true, format_detected := fmtFull, needs_fixing := false }) ∨
    (matchFull (pyStrip t) = false ∧ (matchShort (pyStrip t)).isSome = true ∧
      analyze_timestamp_format t =
      { original := t, cleaned := pyStrip t, is_valid_srt := false,
        has_hours := false, format_detected := fmtShort, needs_fixing := true }) ∨
    (matchFull (pyStrip t) = false ∧ matchShort (pyStrip t) = none ∧
      analyze_timestamp_format t =
      { original := t, cleaned := pyStrip t, is_valid_srt := false,
        has_hours := false, format_detected := fmtUnknown, needs_fixing := true }) := by
  cases hb : matchFull (pyStrip t) with
  | true => exact Or.inl ⟨rfl, by simp [analyze_timestamp_format, hb]⟩
  | false =>
      cases hp : matchShort (pyStrip t) with
      | some p =>
          exact Or.inr (Or.inl ⟨rfl, rfl,
            by simp [analyze_timestamp_format, hb, hp]⟩)
      | none =>
          exact Or.inr (Or.inr ⟨rfl, rfl,
            by simp [analyze_timestamp_format, hb, hp]⟩)

lemma analyze_full {t : List Char} (h : FullShape (pyStrip t)) :
    (analyze_timestamp_format t).format_detected = fmtFull ∧
      (analyze_timestamp_format t).needs_fixing = false := by
  have hb : matchFull (pyStrip t) = true := matchFull_iff.mpr h
  rcases analyze_cases t with ⟨-, he⟩ | ⟨hf, -, -⟩ | ⟨hf, -, -⟩
  · rw [he]; exact ⟨rfl, rfl⟩
  · rw [hb] at hf; cases hf
  · rw [hb] at hf; cases hf

lemma analyze_short {t : List Char} (hs : ShortShape (pyStrip t)) :
    (analyze_timestamp_format t).format_detected = fmtShort ∧
      (analyze_timestamp_format t).needs_fixing = true := by
  have hnf : ¬ FullShape (pyStrip t) := by
    intro hfull
    rcases hs with ⟨m, sec, ms, hd⟩
    have := fullShape_length hfull
    rcases shortDecomp_length hd with h1 | h1 <;> omega
  have hb : matchFull (pyStrip t) = false := by
    cases hbb : matchFull (pyStrip t)
    · rfl
    · exact absurd (matchFull_iff.mp hbb) hnf
  have hss : (matchShort (pyStrip t)).isSome = true := matchShort_isSome_iff.mpr hs
  rcases analyze_cases t with ⟨hf, -⟩ | ⟨-, -, he⟩ | ⟨-, hn, -⟩
  · rw [hb] at hf; cases hf
  · rw [he]; exact ⟨rfl, rfl⟩
  · rw [hn] at hss; cases hss

lemma analyze_unknown {t : List Char} (hnf : ¬ FullShape (pyStrip t))
    (hns : ¬ ShortShape (pyStrip t)) :
    (analyze_timestamp_format t).format_detected = fmtUnknown ∧
      (analyze_timestamp_format t).needs_fixing = true := by
  rcases analyze_cases t with ⟨hf, -⟩ | ⟨-, hsome, -⟩ | ⟨-, -, he⟩
  · exact absurd (matchFull_iff.mp hf) hnf
  · exact absurd (matchShort_isSome_iff.mp hsome) hns
  · rw [he]; exact ⟨rfl, rfl⟩

lemma format_full_not_fixing {t : List Char}
    (h : (analyze_timestamp_format t).format_detected = fmtFull) :
    (analyze_timestamp_format t).needs_fixing = false := by
  rcases analyze_cases t with ⟨-, he⟩ | ⟨-, -, he⟩ | ⟨-, -, he⟩
  · rw [he]
  · rw [he] at h
    exact absurd (show fmtShort = fmtFull from h) (by decide)
  · rw [he] at h
    exact absurd (show fmtUnknown = fmtFull from h) (by decide)

lemma padZero2_length {m : List Char} (h : m.length = 1 ∨ m.length = 2) :
    (padZero2 m).length = 2 := by
  unfold padZero2
  rcases h with h | h <;> simp [h]

lemma padZero2_digits {m : List Char} (h : ∀ x ∈ m, x.isDigit = true) :
    ∀ x ∈ padZero2 m, x.isDigit = true := by
  unfold padZero2
  split
  · intro x hx
    rcases List.mem_append.mp hx with hx | hx
    · rw [List.eq_of_mem_replicate hx]; decide
    · exact h x hx
  · exact h

lemma fix_of_some {s m sec ms : List Char}
    (hb : matchShort (pyStrip s) = some (m, sec, ms)) :
    fix_timestamp_format s =
      '0' :: '0' :: ':' :: (padZero2 m ++ ':' :: (sec ++ ',' :: ms)) := by
  simp [fix_timestamp_format, hb]

lemma fix_of_none {s : List Char} (hb : matchShort (pyStrip s) = none) :
    fix_timestamp_format s = pyStrip s := by
  simp [fix_timestamp_format, hb]

lemma fixed_result_no_space {m sec ms : List Char}
    (dm : ∀ x ∈ m, x.isDigit = true) (ds : ∀ x ∈ sec, x.isDigit = true)
    (dx : ∀ x ∈ ms, x.isDigit = true) :
    ∀ x ∈ '0' :: '0' :: ':' :: (padZero2 m ++ ':' :: (sec ++ ',' :: ms)),
      isPySpace x = false := by
  intro x hx
  simp only [List.mem_cons, List.mem_append] at hx
  rcases hx with rfl | rfl | rfl | hx | rfl | hx | rfl | hx
  · decide
  · decide
  · decide
  · exact digit_not_space (padZero2_digits dm x hx)
  · decide
  · exact digit_not_space (ds x hx)
  · decide
  · exact digit_not_space (dx x hx)

lemma fix_idem (s : List Char) :
    fix_timestamp_format (fix_timestamp_format s) = fix_timestamp_format s := by
  cases hb : matchShort (pyStrip s) with
  | none =>
      rw [fix_of_none hb]
      have h2 : pyStrip (pyStrip s) = pyStrip s := pyStrip_idem s
      rw [fix_of_none (by rw [h2, hb]), h2]
  | some p =>
      obtain ⟨m, sec, ms⟩ := p
      obtain ⟨hlen, hsec, hms, dm, ds, dx, -⟩ := matchShort_eq_some_iff.mp hb
      rw [fix_of_some hb]
      have hnos := fixed_result_no_space dm ds dx
      have hstrip := pyStrip_eq_self _ hnos
      have hlenR : ('0' :: '0' :: ':' :: (padZero2 m ++ ':' :: (sec ++ ',' :: ms))).length = 12 := by
        simp [List.length_append, padZero2_length hlen, hsec, hms]
      rw [fix_of_none (by rw [hstrip]; exact matchShort_none_of_len (by omega) (by omega)), hstrip]

lemma digit_beq_colon {c : Char} (h : c.isDigit = true) : (c == ':') = false := by
  cases hb : c == ':'
  · rfl
  · rw [show c = ':' from beq_iff_eq.mp hb] at h
    exact absurd h (by decide)

lemma tokenAt_some {s t rest : List Char} (h : tokenAt s = some (t, rest)) :
    ShortShape t ∧ s = t ++ rest := by
  unfold tokenAt at h
  split at h
  next d1 c2 rest2 =>
    split at h
    · next hd1 =>
        split at h
        · next hc2 =>
            split at h
            next s1 s2 x1 x2 x3 r =>
              split at h
              · next hg =>
                  simp only [Bool.and_eq_true] at hg
                  obtain ⟨⟨⟨⟨g3, g4⟩, g5⟩, g6⟩, g7⟩ := hg
                  simp only [Option.some.injEq, Prod.mk.injEq] at h
                  obtain ⟨rfl, rfl⟩ := h
                  refine ⟨⟨[d1], [s1, s2], [x1, x2, x3],
                    Or.inl rfl, rfl, rfl, by simp [hd1], by simp [g3, g4],
                    by simp [g5, g6, g7], rfl⟩, ?_⟩
                  rw [show c2 = ':' from beq_iff_eq.mp hc2]
                  rfl
              · simp at h
            next => simp at h
        · next hc2 =>
            split at h
            · next hdc2 =>
                split at h
                next s1 s2 x1 x2 x3 r =>
                  split at h
                  · next hg =>
                      simp only [Bool.and_eq_true] at hg
                      obtain ⟨⟨⟨⟨g3, g4⟩, g5⟩, g6⟩, g7⟩ := hg
                      simp only [Option.some.injEq, Prod.mk.injEq] at h
                      obtain ⟨rfl, rfl⟩ := h
                      exact ⟨⟨[d1, c2], [s1, s2], [x1, x2, x3],
                        Or.inr rfl, rfl, rfl, by simp [hd1, hdc2], by simp [g3, g4],
                        by simp [g5, g6, g7], rfl⟩, rfl⟩
                  · simp at h
                next => simp at h
            · simp at h
    · simp at h
  next => simp at h

lemma tokenAt_append {t m sec ms : List Char} (hd : ShortDecomp t m sec ms) :
    ∀ rest, tokenAt (t ++ rest) = some (t, rest) := by
  obtain ⟨hlen, hsec, hms, dm, ds, dx, rfl⟩ := hd
  obtain ⟨d, e, rfl⟩ := List.length_eq_two.mp hsec
  obtain ⟨i, j, k, rfl⟩ := List.length_eq_three.mp hms
  simp only [List.mem_cons, List.not_mem_nil, or_false, forall_eq_or_imp, forall_eq] at ds dx
  intro rest
  rcases hlen with h1 | h2
  · obtain ⟨a, rfl⟩ := List.length_eq_one.mp h1
    simp only [List.mem_cons, List.not_mem_nil, or_false, forall_eq] at dm
    show tokenAt (a :: ':' :: d :: e :: ',' :: i :: j :: k :: rest) =
      some ([a, ':', d, e, ',', i, j, k], rest)
    simp [tokenAt, dm, ds.1, ds.2, dx.1, dx.2.1, dx.2.2]
  · obtain ⟨a, b, rfl⟩ := List.length_eq_two.mp h2
    simp only [List.mem_cons, List.not_mem_nil, or_false, forall_eq_or_imp, forall_eq] at dm
    show tokenAt (a :: b :: ':' :: d :: e :: ',' :: i :: j :: k :: rest) =
      some ([a, b, ':', d, e, ',', i, j, k], rest)
    simp [tokenAt, dm.1, dm.2, digit_beq_colon dm.2, ds.1, ds.2, dx.1, dx.2.1, dx.2.2]

lemma takeWhile_append_all {p : Char → Bool} {sp : List Char}
    (h : ∀ c ∈ sp, p c = true) (l : List Char) :
    (sp ++ l).takeWhile p = sp ++ l.takeWhile p := by
  induction sp with
  | nil => rfl
  | cons a tl ih =>
      rw [List.cons_append, List.takeWhile_cons, h a (List.mem_cons_self a tl),
        if_pos rfl, ih fun c hc => h c (List.mem_cons_of_mem a hc), List.cons_append]

lemma dropWhile_append_all {p : Char → Bool} {sp : List Char}
    (h : ∀ c ∈ sp, p c = true) (l : List Char) :
    (sp ++ l).dropWhile p = l.dropWhile p := by
  induction sp with
  | nil => rfl
  | cons a tl ih =>
      rw [List.cons_append, List.dropWhile_cons, h a (List.mem_cons_self a tl),
        if_pos rfl]
      exact ih fun c hc => h c (List.mem_cons_of_mem a hc)

lemma ShortDecomp.head_nospace {c m sec ms : List Char} (h : ShortDecomp c m sec ms) :
    ∃ a c', c = a :: c' ∧ isPySpace a = false := by
  obtain ⟨hlen, -, -, dm, -, -, rfl⟩ := h
  cases m with
  | nil => simp at hlen
  | cons a m' =>
      exact ⟨a, m' ++ ':' :: (sec ++ ',' :: ms), rfl,
        digit_not_space (dm a (by simp))⟩

lemma pairAt_some {s l r : List Char} (h : pairAt s = some (l, r)) :
    ShortShape l ∧ ShortShape r ∧
      ∃ sp post, sp ≠ [] ∧ (∀ c ∈ sp, isPySpace c = true) ∧
        s = l ++ (sp ++ (r ++ post)) := by
  unfold pairAt at h
  split at h
  · simp at h
  · next t1 rest htok =>
      split at h
      · simp at h
      · next hne =>
          split at h
          · next t2 rest2 htok2 =>
              simp only [Option.some.injEq, Prod.mk.injEq] at h
              obtain ⟨rfl, rfl⟩ := h
              obtain ⟨hs1, hseq⟩ := tokenAt_some htok
              obtain ⟨hs2, hdeq⟩ := tokenAt_some htok2
              refine ⟨hs1, hs2, rest.takeWhile isPySpace, rest2, ?_, ?_, ?_⟩
              · intro hnil
                rw [hnil] at hne
                exact hne rfl
              · intro c hc
                exact List.mem_takeWhile_imp hc
              · rw [hseq, ← hdeq]
                rw [List.takeWhile_append_dropWhile]
          · simp at h

lemma pairAt_build {t1 sp t2 : List Char} (h1 : ShortShape t1) (h2 : ShortShape t2)
    (hsp : sp ≠ []) (hall : ∀ c ∈ sp, isPySpace c = true) (post : List Char) :
    pairAt (t1 ++ (sp ++ (t2 ++ post))) = some (t1, t2) := by
  obtain ⟨m1, s1, x1, hd1⟩ := h1
  obtain ⟨m2, s2, x2, hd2⟩ := h2
  have htok1 := tokenAt_append hd1 (sp ++ (t2 ++ post))
  have htok2 := tokenAt_append hd2 post
  obtain ⟨a, t2', het, hna⟩ := hd2.head_nospace
  have htw : (sp ++ (t2 ++ post)).takeWhile isPySpace = sp := by
    rw [takeWhile_append_all hall, het]
    simp [List.takeWhile_cons, hna]
  have hdw : (sp ++ (t2 ++ post)).dropWhile isPySpace = t2 ++ post := by
    rw [dropWhile_append_all hall, het]
    simp [List.dropWhile_cons, hna]
  have hemp : sp.isEmpty = false := by
    cases sp
    · exact absurd rfl hsp
    · rfl
  unfold pairAt
  rw [htok1]
  simp [htw, hdw, htok2, hemp]

lemma searchPair_some {line l r : List Char} (h : searchPair line = some (l, r)) :
    ShortShape l ∧ ShortShape r := by
  induction line with
  | nil => simp [searchPair] at h
  | cons c cs ih =>
      unfold searchPair at h
      split at h
      · next p hp =>
          simp only [Option.some.injEq] at h
          subst h
          obtain ⟨hs1, hs2, -⟩ := pairAt_some hp
          exact ⟨hs1, hs2⟩
      · exact ih h

lemma searchPair_leftmost {line : List Char} {p : List Char × List Char}
    (h : searchPair line = some p) :
    ∃ i, pairAt (line.drop i) = some p ∧ ∀ j < i, pairAt (line.drop j) = none := by
  induction line with
  | nil => simp [searchPair] at h
  | cons c cs ih =>
      unfold searchPair at h
      split at h
      · next q hq =>
          simp only [Option.some.injEq] at h
          subst h
          exact ⟨0, by simpa using hq, by intro j hj; omega⟩
      · next hq =>
          obtain ⟨i, hi, hmin⟩ := ih h
          refine ⟨i + 1, by simpa using hi, ?_⟩
          intro j hj
          cases j with
          | zero => simpa using hq
          | succ j' => simpa using hmin j' (by omega)

lemma searchPair_suffix : ∀ (pre s : List Char), (pairAt s).isSome = true →
    (searchPair (pre ++ s)).isSome = true := by
  intro pre
  induction pre with
  | nil =>
      intro s h
      cases s with
      | nil => simp [pairAt, tokenAt] at h
      | cons c cs =>
          obtain ⟨p, hp⟩ := Option.isSome_iff_exists.mp h
          simp [searchPair, hp]
  | cons c pre ih =>
      intro s h
      show (searchPair (c :: (pre ++ s))).isSome = true
      unfold searchPair
      split
      · rfl
      · exact ih s h

lemma searchPair_isSome_iff {line : List Char} :
    (searchPair line).isSome = true ↔ PairExists line := by
  constructor
  · intro h
    induction line with
    | nil => simp [searchPair] at h
    | cons c cs ih =>
        unfold searchPair at h
        rcases hq : pairAt (c :: cs) with _ | q
        · rw [hq] at h
          simp only [] at h
          obtain ⟨pre, t1, sp, t2, post, u1, u2, u3, u4, u5⟩ := ih h
          exact ⟨c :: pre, t1, sp, t2, post, u1, u2, u3, u4, by simp [u5]⟩
        · obtain ⟨l, r⟩ := q
          obtain ⟨hs1, hs2, sp, post, hsp, hall, heq⟩ := pairAt_some hq
          exact ⟨[], l, sp, r, post, hs1, hs2, hsp, hall, by simp [heq, List.append_assoc]⟩
  · rintro ⟨pre, t1, sp, t2, post, h1, h2, hsp, hall, rfl⟩
    have hb := pairAt_build h1 h2 hsp hall post
    have : (pairAt (t1 ++ (sp ++ (t2 ++ post)))).isSome = true := by rw [hb]; rfl
    have hres := searchPair_suffix pre _ this
    simpa [List.append_assoc] using hres

lemma fal_arrow_two_fix {line l r : List Char} (hA : hasArrow line = true)
    (hs : pySplitArrow line = [l, r])
    (hf : ((analyze_timestamp_format (pyStrip l)).needs_fixing ||
      (analyze_timestamp_format (pyStrip r)).needs_fixing) = true) :
    find_and_analyze_timestamp_line line =
      { original_line := line, is_timestamp_line := true, has_arrow := true,
        left_timestamp := some (pyStrip l), right_timestamp := some (pyStrip r),
        left_analysis := some (analyze_timestamp_format (pyStrip l)),
        right_analysis := some (analyze_timestamp_format (pyStrip r)),
        needs_fixing := true,
        fixed_line := some (fix_timestamp_format (pyStrip l) ++ arrowSep ++
          fix_timestamp_format (pyStrip r)) } := by
  simp [find_and_analyze_timestamp_line, hA, hs, hf]

lemma fal_arrow_two_ok {line l r : List Char} (hA : hasArrow line = true)
    (hs : pySplitArrow line = [l, r])
    (hf : ((analyze_timestamp_format (pyStrip l)).needs_fixing ||
      (analyze_timestamp_format (pyStrip r)).needs_fixing) = false) :
    find_and_analyze_timestamp_line line =
      { original_line := line, is_timestamp_line := true, has_arrow := true,
        left_timestamp := some (pyStrip l), right_timestamp := some (pyStrip r),
        left_analysis := some (analyze_timestamp_format (pyStrip l)),
        right_analysis := some (analyze_timestamp_format (pyStrip r)),
        needs_fixing := false, fixed_line := none } := by
  simp [find_and_analyze_timestamp_line, hA, hs, hf]

lemma fal_arrow_other {line : List Char} (hA : hasArrow line = true)
    (hs : (pySplitArrow line).length ≠ 2) :
    find_and_analyze_timestamp_line line =
      { original_line := line, is_timestamp_line := true, has_arrow := true,
        left_timestamp := none, right_timestamp := none,
        left_analysis := none, right_analysis := none,
        needs_fixing := false, fixed_line := none } := by
  simp only [find_and_analyze_timestamp_line, hA, if_true]
  split
  · next l r heq => exact absurd (by rw [heq]; rfl) hs
  · rfl

lemma fal_noarrow_pair {line l r : List Char} (hA : hasArrow line = false)
    (hp : searchPair line = some (l, r)) :
    find_and_analyze_timestamp_line line =
      { original_line := line, is_timestamp_line := true, has_arrow := false,
        left_timestamp := some l, right_timestamp := some r,
        left_analysis := some (analyze_timestamp_format l),
        right_analysis := some (analyze_timestamp_format r),
        needs_fixing := true,
        fixed_line := some (fix_timestamp_format l ++ arrowSep ++
          fix_timestamp_format r) } := by
  simp [find_and_analyze_timestamp_line, hA, hp]

lemma fal_notimestamp {line : List Char} (hA : hasArrow line = false)
    (hp : searchPair line = none) :
    find_and_analyze_timestamp_line line =
      { original_line := line, is_timestamp_line := false, has_arrow := false,
        left_timestamp := none, right_timestamp := none,
        left_analysis := none, right_analysis := none,
        needs_fixing := false, fixed_line := none } := by
  simp [find_and_analyze_timestamp_line, hA, hp]

lemma fal_has_arrow {line : List Char} (hA : hasArrow line = true) :
    (find_and_analyze_timestamp_line line).has_arrow = true := by
  simp only [find_and_analyze_timestamp_line, hA, if_true]
  split
  · split <;> rfl
  · rfl

lemma fal_needs_fixing_isSome {line : List Char}
    (h : (find_and_analyze_timestamp_line line).needs_fixing = true) :
    ∃ f, (find_and_analyze_timestamp_line line).fixed_line = some f := by
  cases hA : hasArrow line with
  | true =>
      rcases hsp : pySplitArrow line with _ | ⟨l, t⟩
      · rw [fal_arrow_other hA (by rw [hsp]; simp)] at h
        cases h
      · rcases t with _ | ⟨r, t2⟩
        · rw [fal_arrow_other hA (by rw [hsp]; simp)] at h
          cases h
        · rcases t2 with _ | ⟨z, t3⟩
          · cases hf : ((analyze_timestamp_format (pyStrip l)).needs_fixing ||
              (analyze_timestamp_format (pyStrip r)).needs_fixing) with
            | false =>
                rw [fal_arrow_two_ok hA hsp hf] at h
                cases h
            | true =>
                rw [fal_arrow_two_fix hA hsp hf]
                exact ⟨_, rfl⟩
          · rw [fal_arrow_other hA (by rw [hsp]; simp)] at h
            cases h
  | false =>
      rcases hp : searchPair line with _ | ⟨l, r⟩
      · rw [fal_notimestamp hA hp] at h
        cases h
      · rw [fal_noarrow_pair hA hp]
        exact ⟨_, rfl⟩

lemma processAux_fst (lines : List (List Char)) : ∀ (n : Nat) (st : ProcessingStats),
    (processLinesAux n lines st).1 = lines.map emitLine := by
  induction lines with
  | nil => intro n st; rfl
  | cons line rest ih =>
      intro n st
      simp only [processLinesAux, emitLine, List.map_cons]
      split
      · split
        · simp only [ih]
        · simp only [ih]
      · simp only [ih]

lemma processAux_found (lines : List (List Char)) : ∀ (n : Nat) (st : ProcessingStats),
    (processLinesAux n lines st).2.timestamp_lines_found =
      st.timestamp_lines_found + lines.countP
        (fun raw => (find_and_analyze_timestamp_line (pyRstripNewline raw)).is_timestamp_line) := by
  induction lines with
  | nil => intro n st; simp [processLinesAux]
  | cons line rest ih =>
      intro n st
      simp only [processLinesAux, List.countP_cons]
      split
      · next hts =>
          split
          · rw [ih]
            simp [hts]
            omega
          · rw [ih]
            simp [hts]
            omega
      · next hts =>
          rw [ih]
          simp only [Bool.not_eq_true] at hts
          simp [hts]

lemma processAux_fixed (lines : List (List Char)) : ∀ (n : Nat) (st : ProcessingStats),
    (processLinesAux n lines st).2.timestamp_lines_fixed =
      st.timestamp_lines_fixed + lines.countP
        (fun raw => (find_and_analyze_timestamp_line (pyRstripNewline raw)).is_timestamp_line &&
          (find_and_analyze_timestamp_line (pyRstripNewline raw)).needs_fixing) := by
  induction lines with
  | nil => intro n st; simp [processLinesAux]
  | cons line rest ih =>
      intro n st
      simp only [processLinesAux, List.countP_cons]
      split
      · next hts =>
          split
          · next hnf =>
              rw [ih]
              simp [hts, hnf]
              omega
          · next hnf =>
              rw [ih]
              simp only [Bool.not_eq_true] at hnf
              simp [hts, hnf]
      · next hts =>
          rw [ih]
          simp only [Bool.not_eq_true] at hts
          simp [hts]

lemma processAux_total (lines : List (List Char)) : ∀ (n : Nat) (st : ProcessingStats),
    (processLinesAux n lines st).2.total_lines = st.total_lines := by
  induction lines with
  | nil => intro n st; rfl
  | cons line rest ih =>
      intro n st
      simp only [processLinesAux]
      split
      · split
        · rw [ih]
        · rw [ih]
      · rw [ih]

lemma processAux_nofix (lines : List (List Char))
    (h : ∀ raw ∈ lines, (find_and_analyze_timestamp_line (pyRstripNewline raw)).needs_fixing = false) :
    ∀ (n : Nat) (st : ProcessingStats),
      (processLinesAux n lines st).1 = lines ∧
        (processLinesAux n lines st).2.timestamp_lines_fixed = st.timestamp_lines_fixed := by
  induction lines with
  | nil => intro n st; exact ⟨rfl, rfl⟩
  | cons line rest ih =>
      intro n st
      have hline : (find_and_analyze_timestamp_line (pyRstripNewline line)).needs_fixing = false :=
        h line (by simp)
      have hrest : ∀ raw ∈ rest,
          (find_and_analyze_timestamp_line (pyRstripNewline raw)).needs_fixing = false :=
        fun raw hr => h raw (by simp [hr])
      simp only [processLinesAux]
      split
      · rw [hline]
        simp only [Bool.false_eq_true, if_false]
        obtain ⟨h1, h2⟩ := ih hrest (n + 1)
          { st with timestamp_lines_found := st.timestamp_lines_found + 1 }
        exact ⟨by rw [h1], by rw [h2]⟩
      · obtain ⟨h1, h2⟩ := ih hrest (n + 1) st
        exact ⟨by rw [h1], by rw [h2]⟩

lemma process_output_get {lines : List (List Char)} {i : Nat} {raw : List Char}
    (hg : lines[i]? = some raw) :
    (process_srt_file lines).1[i]? = some (emitLine raw) := by
  unfold process_srt_file
  rw [processAux_fst]
  rw [List.getElem?_map, hg]
  rfl

lemma emitLine_of_nofix {raw : List Char}
    (h : ((find_and_analyze_timestamp_line (pyRstripNewline raw)).is_timestamp_line &&
      (find_and_analyze_timestamp_line (pyRstripNewline raw)).needs_fixing) = false) :
    emitLine raw = raw := by
  simp only [emitLine]
  simp only [Bool.and_eq_false_imp] at h
  split
  · next hts =>
      rw [h hts]
      simp
  · rfl

lemma emitLine_of_fix {raw f : List Char}
    (hts : (find_and_analyze_timestamp_line (pyRstripNewline raw)).is_timestamp_line = true)
    (hnf : (find_and_analyze_timestamp_line (pyRstripNewline raw)).needs_fixing = true)
    (hf : (find_and_analyze_timestamp_line (pyRstripNewline raw)).fixed_line = some f) :
    emitLine raw = f ++ ['\n'] := by
  simp only [emitLine]
  simp [hts, hnf, emitFixed, hf]

lemma forall_some_format {o : Option TimestampAnalysis} {A : TimestampAnalysis}
    (he : o = some A) (hf : A.format_detected = fmtFull) :
    ∀ ta, o = some ta → ta.format_detected = fmtFull := by
  intro ta hta
  rw [he] at hta
  cases Option.some.inj hta
  exact hf

lemma fal_nofix_of_sides_full {line : List Char}
    (h : (find_and_analyze_timestamp_line line).is_timestamp_line = true →
      (∀ ta, (find_and_analyze_timestamp_line line).left_analysis = some ta →
        ta.format_detected = fmtFull) ∧
      (∀ ta, (find_and_analyze_timestamp_line line).right_analysis = some ta →
        ta.format_detected = fmtFull)) :
    (find_and_analyze_timestamp_line line).needs_fixing = false := by
  cases hA : hasArrow line with
  | false =>
      rcases hp : searchPair line with _ | ⟨l, r⟩
      · rw [fal_notimestamp hA hp]
      · obtain ⟨hs1, -⟩ := searchPair_some hp
        have hrec := fal_noarrow_pair hA hp
        have hts : (find_and_analyze_timestamp_line line).is_timestamp_line = true := by
          rw [hrec]
        obtain ⟨hl, -⟩ := h hts
        have hla : (find_and_analyze_timestamp_line line).left_analysis =
            some (analyze_timestamp_format l) := by rw [hrec]
        have hfull := hl _ hla
        obtain ⟨m, sec, ms, hd⟩ := hs1
        have hstrip : pyStrip l = l := pyStrip_eq_self l hd.noSpace
        have hshort := analyze_short (t := l) (by rw [hstrip]; exact ⟨m, sec, ms, hd⟩)
        rw [hshort.1] at hfull
        exact absurd hfull (by decide)
  | true =>
      rcases hsp : pySplitArrow line with _ | ⟨l, t⟩
      · rw [fal_arrow_other hA (by rw [hsp]; simp)]
      · rcases t with _ | ⟨r, t2⟩
        · rw [fal_arrow_other hA (by rw [hsp]; simp)]
        · rcases t2 with _ | ⟨z, t3⟩
          · cases hf : ((analyze_timestamp_format (pyStrip l)).needs_fixing ||
              (analyze_timestamp_format (pyStrip r)).needs_fixing) with
            | false => rw [fal_arrow_two_ok hA hsp hf]
            | true =>
                exfalso
                have hrec := fal_arrow_two_fix hA hsp hf
                have hts : (find_and_analyze_timestamp_line line).is_timestamp_line = true := by
                  rw [hrec]
                obtain ⟨hl, hr⟩ := h hts
                have hlf := hl _ (by rw [hrec])
                have hrf := hr _ (by rw [hrec])
                have h1 := format_full_not_fixing hlf
                have h2 := format_full_not_fixing hrf
                rw [h1, h2] at hf
                cases hf
          · rw [fal_arrow_other hA (by rw [hsp]; simp)]

/-- C1: for every input string, analyze_timestamp_format first trims the
string; if the trimmed value has the full shape, exactly two digits, colon,
two digits, colon, two digits, comma, exactly three digits, the detected
format is the full format and no fixing is needed; otherwise, if it has the
short shape, one or two digits, colon, exactly two digits, comma, exactly
three digits, the detected format is the short hour-missing format and fixing
is needed; otherwise the detected format is unknown and fixing is needed. -/
theorem C1_classify_three_way (s : List Char) :
    (analyze_timestamp_format s).cleaned = pyStrip s ∧
    (FullShape (pyStrip s) →
      (analyze_timestamp_format s).format_detected = fmtFull ∧
        (analyze_timestamp_format s).needs_fixing = false) ∧
    (¬ FullShape (pyStrip s) → ShortShape (pyStrip s) →
      (analyze_timestamp_format s).format_detected = fmtShort ∧
        (analyze_timestamp_format s).needs_fixing = true) ∧
    (¬ FullShape (pyStrip s) → ¬ ShortShape (pyStrip s) →
      (analyze_timestamp_format s).format_detected = fmtUnknown ∧
        (analyze_timestamp_format s).needs_fixing = true) := by
  refine ⟨?_, fun h => analyze_full h, fun _ hs => analyze_short hs,
    fun h1 h2 => analyze_unknown h1 h2⟩
  rcases analyze_cases s with ⟨-, he⟩ | ⟨-, -, he⟩ | ⟨-, -, he⟩ <;> rw [he]

/-- C1 witness: the classifier evaluated on a concrete fully qualified
timestamp. -/
theorem C1_classify_three_way_witness :
    (analyze_timestamp_format "00:00:05,000".toList).format_detected = fmtFull ∧
      (analyze_timestamp_format "00:00:05,000".toList).needs_fixing = false :=
  (C1_classify_three_way ("00:00:05,000".toList)).2.1
    ⟨['0', '0'], ['0', '0'], ['0', '5'], ['0', '0', '0'], rfl, rfl, rfl, rfl,
      by decide, by decide, by decide, by decide, by decide⟩

/-- C2: repair trims the string; on a trimmed value of the short shape it
returns the zero hour field, the minutes left-padded with zero to two digits,
the seconds and the milliseconds exactly as captured; on every other value it
returns the trimmed string unchanged. -/
theorem C2_repair (s : List Char) :
    (∀ m sec ms, ShortDecomp (pyStrip s) m sec ms →
      fix_timestamp_format s =
        '0' :: '0' :: ':' :: (padZero2 m ++ ':' :: (sec ++ ',' :: ms))) ∧
    (¬ ShortShape (pyStrip s) → fix_timestamp_format s = pyStrip s) := by
  constructor
  · intro m sec ms hd
    exact fix_of_some (matchShort_eq_some_iff.mpr hd)
  · intro hns
    apply fix_of_none
    cases hb : matchShort (pyStrip s) with
    | none => rfl
    | some p =>
        obtain ⟨m, sec, ms⟩ := p
        exact absurd ⟨m, sec, ms, matchShort_eq_some_iff.mp hb⟩ hns

/-- C2 witness: repair evaluated on a concrete hour-missing timestamp. -/
theorem C2_repair_witness :
    fix_timestamp_format "1:02,003".toList =
      '0' :: '0' :: ':' :: (padZero2 ['1'] ++ ':' :: (['0', '2'] ++ ',' :: ['0', '0', '3'])) :=
  (C2_repair ("1:02,003".toList)).1 ['1'] ['0', '2'] ['0', '0', '3']
    ⟨Or.inl rfl, rfl, rfl, by decide, by decide, by decide, by decide⟩

/-- C3: a line that contains the arrow and splits on it into exactly two
parts has both trimmed sides classified independently, needs fixing exactly
when at least one side does, and in that case carries the fixed line built
from both repaired sides; on the concrete line of unrecognised sides the
analysis needs fixing, both sides are detected as unknown, and the fixed line
equals the original text because repair leaves unknown values unchanged. -/
theorem C3_arrow_line :
    (∀ line l r : List Char, hasArrow line = true → pySplitArrow line = [l, r] →
      (find_and_analyze_timestamp_line line).left_analysis =
          some (analyze_timestamp_format (pyStrip l)) ∧
        (find_and_analyze_timestamp_line line).right_analysis =
          some (analyze_timestamp_format (pyStrip r)) ∧
        (find_and_analyze_timestamp_line line).needs_fixing =
          ((analyze_timestamp_format (pyStrip l)).needs_fixing ||
            (analyze_timestamp_format (pyStrip r)).needs_fixing) ∧
        (((analyze_timestamp_format (pyStrip l)).needs_fixing ||
            (analyze_timestamp_format (pyStrip r)).needs_fixing) = true →
          (find_and_analyze_timestamp_line line).fixed_line =
            some (fix_timestamp_format (pyStrip l) ++ arrowSep ++
              fix_timestamp_format (pyStrip r)))) ∧
    ((find_and_analyze_timestamp_line "garbage --> nonsense".toList).needs_fixing = true ∧
      ((find_and_analyze_timestamp_line "garbage --> nonsense".toList).left_analysis.map
        TimestampAnalysis.format_detected) = some fmtUnknown ∧
      ((find_and_analyze_timestamp_line "garbage --> nonsense".toList).right_analysis.map
        TimestampAnalysis.format_detected) = some fmtUnknown ∧
      (find_and_analyze_timestamp_line "garbage --> nonsense".toList).fixed_line =
        some "garbage --> nonsense".toList) := by
  constructor
  · intro line l r hA hs
    cases hf : ((analyze_timestamp_format (pyStrip l)).needs_fixing ||
        (analyze_timestamp_format (pyStrip r)).needs_fixing) with
    | true =>
        rw [fal_arrow_two_fix hA hs hf]
        exact ⟨rfl, rfl, rfl, fun _ => rfl⟩
    | false =>
        rw [fal_arrow_two_ok hA hs hf]
        exact ⟨rfl, rfl, rfl, fun hcontra => Bool.noConfusion hcontra⟩
  · exact ⟨by decide, by decide, by decide, by decide⟩

/-- C3 witness: the arrow-line analysis evaluated on a concrete line whose
sides are hour-missing timestamps. -/
theorem C3_arrow_line_witness :
    (find_and_analyze_timestamp_line "01:30,500 --> 01:31,500".toList).needs_fixing =
      ((analyze_timestamp_format (pyStrip "01:30,500 ".toList)).needs_fixing ||
        (analyze_timestamp_format (pyStrip " 01:31,500".toList)).needs_fixing) :=
  (C3_arrow_line.1 ("01:30,500 --> 01:31,500".toList) ("01:30,500 ".toList)
    (" 01:31,500".toList) (by decide) (by decide)).2.2.1

/-- C4: a line without the arrow enters the missing-arrow branch exactly when
it contains two short-form tokens separated by whitespace; the analysis then
marks a timestamp line without arrow that always needs fixing, the extracted
pair is the leftmost successful match, both tokens have the short shape, and
the fixed line joins the repaired tokens with the inserted arrow; a line that
contains the arrow always keeps the arrow branch; the concrete missing-arrow
scenario produces the expected fixed line. -/
theorem C4_missing_arrow :
    (∀ line : List Char, hasArrow line = false →
      ((searchPair line).isSome = true ↔ PairExists line) ∧
      (∀ l r, searchPair line = some (l, r) →
        (find_and_analyze_timestamp_line line).is_timestamp_line = true ∧
        (find_and_analyze_timestamp_line line).has_arrow = false ∧
        (find_and_analyze_timestamp_line line).needs_fixing = true ∧
        (find_and_analyze_timestamp_line line).left_timestamp = some l ∧
        (find_and_analyze_timestamp_line line).right_timestamp = some r ∧
        ShortShape l ∧ ShortShape r ∧
        (∃ i, pairAt (line.drop i) = some (l, r) ∧
          ∀ j < i, pairAt (line.drop j) = none) ∧
        (find_and_analyze_timestamp_line line).fixed_line =
          some (fix_timestamp_format l ++ arrowSep ++ fix_timestamp_format r))) ∧
    (∀ line : List Char, hasArrow line = true →
      (find_and_analyze_timestamp_line line).has_arrow = true) ∧
    (find_and_analyze_timestamp_line "01:00,600  01:01,600".toList).fixed_line =
      some "00:01:00,600 --> 00:01:01,600".toList := by
  refine ⟨?_, fun line hA => fal_has_arrow hA, by decide⟩
  intro line hA
  refine ⟨searchPair_isSome_iff, ?_⟩
  intro l r hp
  obtain ⟨hs1, hs2⟩ := searchPair_some hp
  rw [fal_noarrow_pair hA hp]
  exact ⟨rfl, rfl, rfl, rfl, rfl, hs1, hs2, searchPair_leftmost hp, rfl⟩

/-- C4 witness: the missing-arrow analysis evaluated on the concrete
scenario line. -/
theorem C4_missing_arrow_witness :
    (find_and_analyze_timestamp_line "01:00,600  01:01,600".toList).needs_fixing = true ∧
    (find_and_analyze_timestamp_line "01:00,600  01:01,600".toList).left_timestamp =
      some "01:00,600".toList :=
  ⟨((C4_missing_arrow.1 ("01:00,600  01:01,600".toList) (by decide)).2
      ("01:00,600".toList) ("01:01,600".toList) (by decide)).2.2.1,
   ((C4_missing_arrow.1 ("01:00,600  01:01,600".toList) (by decide)).2
      ("01:00,600".toList) ("01:01,600".toList) (by decide)).2.2.2.1⟩

/-- C5: a line that contains the arrow but does not split into exactly two
parts is marked as a timestamp line that needs no fixing and yields no
timestamps; the file pass counts it among the timestamp lines found and
emits it unchanged; the pass is total, producing exactly one output line per
input line and the stated count for every input. -/
theorem C5_structural_anomaly :
    (∀ line : List Char, hasArrow line = true → (pySplitArrow line).length ≠ 2 →
      (find_and_analyze_timestamp_line line).is_timestamp_line = true ∧
      (find_and_analyze_timestamp_line line).has_arrow = true ∧
      (find_and_analyze_timestamp_line line).needs_fixing = false ∧
      (find_and_analyze_timestamp_line line).left_timestamp = none ∧
      (find_and_analyze_timestamp_line line).right_timestamp = none ∧
      (find_and_analyze_timestamp_line line).fixed_line = none) ∧
    (∀ (lines : List (List Char)) (i : Nat) (raw : List Char), lines[i]? = some raw →
      hasArrow (pyRstripNewline raw) = true →
      (pySplitArrow (pyRstripNewline raw)).length ≠ 2 →
      (process_srt_file lines).1[i]? = some raw ∧
      (find_and_analyze_timestamp_line (pyRstripNewline raw)).is_timestamp_line = true) ∧
    (∀ lines : List (List Char),
      (process_srt_file lines).1.length = lines.length ∧
      (process_srt_file lines).2.timestamp_lines_found = lines.countP
        (fun raw =>
          (find_and_analyze_timestamp_line (pyRstripNewline raw)).is_timestamp_line)) := by
  refine ⟨?_, ?_, ?_⟩
  · intro line hA hs
    rw [fal_arrow_other hA hs]
    exact ⟨rfl, rfl, rfl, rfl, rfl, rfl⟩
  · intro lines i raw hg hA hs
    have hrec := fal_arrow_other hA hs
    refine ⟨?_, by rw [hrec]⟩
    rw [process_output_get hg, emitLine_of_nofix (by rw [hrec]; rfl)]
  · intro lines
    constructor
    · unfold process_srt_file
      rw [processAux_fst]
      exact List.length_map lines emitLine
    · unfold process_srt_file
      rw [processAux_found]
      simp

/-- C5 witness: the file pass evaluated on a concrete document whose single
line carries two arrows. -/
theorem C5_structural_anomaly_witness :
    (process_srt_file ["a --> b --> c\n".toList]).1[0]? =
        some "a --> b --> c\n".toList ∧
      (find_and_analyze_timestamp_line
        (pyRstripNewline "a --> b --> c\n".toList)).is_timestamp_line = true :=
  C5_structural_anomaly.2.1 ["a --> b --> c\n".toList] 0 ("a --> b --> c\n".toList)
    (by decide) (by decide) (by decide)

/-- C6: every line analysis that needs fixing carries a fixed line, and for
every line whose analysis needs no fixing the file pass reproduces the
original line unchanged in the output. -/
theorem C6_invariant :
    (∀ line : List Char, (find_and_analyze_timestamp_line line).needs_fixing = true →
      ∃ f, (find_and_analyze_timestamp_line line).fixed_line = some f) ∧
    (∀ (lines : List (List Char)) (i : Nat) (raw : List Char), lines[i]? = some raw →
      (find_and_analyze_timestamp_line (pyRstripNewline raw)).needs_fixing = false →
      (process_srt_file lines).1[i]? = some raw) := by
  refine ⟨fun line h => fal_needs_fixing_isSome h, ?_⟩
  intro lines i raw hg hnf
  rw [process_output_get hg, emitLine_of_nofix (by rw [hnf]; simp)]

/-- C6 witness: the invariant evaluated on a concrete fixable line and a
concrete document line that needs no fixing. -/
theorem C6_invariant_witness :
    (∃ f, (find_and_analyze_timestamp_line "01:30,500 --> 01:31,500".toList).fixed_line =
      some f) ∧
    (process_srt_file ["Hello\n".toList]).1[0]? = some "Hello\n".toList :=
  ⟨C6_invariant.1 ("01:30,500 --> 01:31,500".toList) (by decide),
   C6_invariant.2 ["Hello\n".toList] 0 ("Hello\n".toList) (by decide) (by decide)⟩

/-- C7: repair is idempotent, applying it twice gives the same result as
applying it once. -/
theorem C7_repair_idempotent (s : List Char) :
    fix_timestamp_format (fix_timestamp_format s) = fix_timestamp_format s :=
  fix_idem s

/-- C8: on a document in which every recognised timestamp line carries only
fully qualified sides, the file pass fixes nothing and returns the input
unchanged. -/
theorem C8_round_trip (lines : List (List Char))
    (h : ∀ raw ∈ lines,
      (find_and_analyze_timestamp_line (pyRstripNewline raw)).is_timestamp_line = true →
      (∀ ta, (find_and_analyze_timestamp_line (pyRstripNewline raw)).left_analysis =
        some ta → ta.format_detected = fmtFull) ∧
      (∀ ta, (find_and_analyze_timestamp_line (pyRstripNewline raw)).right_analysis =
        some ta → ta.format_detected = fmtFull)) :
    (process_srt_file lines).2.timestamp_lines_fixed = 0 ∧
      (process_srt_file lines).1 = lines := by
  have hnf : ∀ raw ∈ lines,
      (find_and_analyze_timestamp_line (pyRstripNewline raw)).needs_fixing = false :=
    fun raw hr => fal_nofix_of_sides_full (h raw hr)
  obtain ⟨h1, h2⟩ := processAux_nofix lines hnf 1
    { total_lines := lines.length, timestamp_lines_found := 0,
      timestamp_lines_fixed := 0, issues_found := [], fixes_applied := [] }
  exact ⟨h2, h1⟩

/-- C8 witness: the round trip evaluated on a concrete well-formed
document. -/
theorem C8_round_trip_witness :
    (process_srt_file ["1\n".toList, "00:00:05,000 --> 00:00:07,000\n".toList,
      "Hi\n".toList]).2.timestamp_lines_fixed = 0 ∧
    (process_srt_file ["1\n".toList, "00:00:05,000 --> 00:00:07,000\n".toList,
      "Hi\n".toList]).1 =
      ["1\n".toList, "00:00:05,000 --> 00:00:07,000\n".toList, "Hi\n".toList] :=
  C8_round_trip _ (by
    intro raw hr hts
    fin_cases hr
    · exact absurd hts (by decide)
    · exact ⟨forall_some_format (A := analyze_timestamp_format
          (pyStrip "00:00:05,000 ".toList)) (by decide) (by decide),
        forall_some_format (A := analyze_timestamp_format
          (pyStrip " 00:00:07,000".toList)) (by decide) (by decide)⟩
    · exact absurd hts (by decide))

/-- C9 counterexample: the five copies do not all agree; on the concrete
missing-arrow line the command-line analyser reports a timestamp line that
needs fixing and produces a fixed line, while the step-by-step demo script
never selects the line and computes no fixed line for it, since its arrow
search is its only detection step. -/
theorem C9_copies_counterexample :
    (find_and_analyze_timestamp_line "01:00,600  01:01,600".toList).needs_fixing = true ∧
    (find_and_analyze_timestamp_line "01:00,600  01:01,600".toList).fixed_line =
      some "00:01:00,600 --> 00:01:01,600".toList ∧
    sbsFixedLine "01:00,600  01:01,600".toList = none :=
  ⟨by decide, by decide, by decide⟩

/-- C9 amended: the command-line, both desktop and the web copies of the
algorithm are identical on every input; the demo script agrees with them on
single-timestamp classification and repair, but its line handling considers
only lines containing the arrow, so it diverges from the other four on
missing-arrow timestamp lines such as the concrete pair line. -/
theorem C9_copies_amended :
    (∀ t, WebApp.analyze_timestamp_format t = analyze_timestamp_format t) ∧
    (∀ t, WebApp.fix_timestamp_format t = fix_timestamp_format t) ∧
    (∀ l, WebApp.find_and_analyze_timestamp_line l = find_and_analyze_timestamp_line l) ∧
    (∀ t, GuiApp.analyze_timestamp_format t = analyze_timestamp_format t) ∧
    (∀ t, GuiApp.fix_timestamp_format t = fix_timestamp_format t) ∧
    (∀ l, GuiApp.find_and_analyze_timestamp_line l = find_and_analyze_timestamp_line l) ∧
    (∀ t, ModernApp.analyze_timestamp_format t = analyze_timestamp_format t) ∧
    (∀ t, ModernApp.fix_timestamp_format t = fix_timestamp_format t) ∧
    (∀ l, ModernApp.find_and_analyze_timestamp_line l = find_and_analyze_timestamp_line l) ∧
    (∀ t, (analyze_single_timestamp t).format = (analyze_timestamp_format t).format_detected ∧
      (analyze_single_timestamp t).needs_fixing = (analyze_timestamp_format t).needs_fixing ∧
      (analyze_single_timestamp t).valid = (analyze_timestamp_format t).is_valid_srt ∧
      (analyze_single_timestamp t).has_hours = (analyze_timestamp_format t).has_hours) ∧
    (∀ t, fix_single_timestamp t = fix_timestamp_format t) ∧
    ((find_and_analyze_timestamp_line "01:00,600  01:01,600".toList).needs_fixing = true ∧
      sbsFixedLine "01:00,600  01:01,600".toList = none) := by
  refine ⟨fun t => rfl, fun t => rfl, fun l => rfl, fun t => rfl, fun t => rfl, fun l => rfl,
    fun t => rfl, fun t => rfl, fun l => rfl, ?_, fun t => rfl, by decide, by decide⟩
  intro t
  cases hb : matchFull (pyStrip t) with
  | true => simp [analyze_single_timestamp, analyze_timestamp_format, hb]
  | false =>
      cases hp : matchShort (pyStrip t) with
      | some p => simp [analyze_single_timestamp, analyze_timestamp_format, hb, hp]
      | none => simp [analyze_single_timestamp, analyze_timestamp_format, hb, hp]

/-- C10: for every rewritten line the file pass emits the fixed text followed
by exactly one newline, independently of the original terminator removed
before analysis, and every line that is not rewritten is kept verbatim. -/
theorem C10_terminator (lines : List (List Char)) (i : Nat) (raw : List Char)
    (hg : lines[i]? = some raw) :
    ((find_and_analyze_timestamp_line (pyRstripNewline raw)).is_timestamp_line = true →
      (find_and_analyze_timestamp_line (pyRstripNewline raw)).needs_fixing = true →
      ∀ f, (find_and_analyze_timestamp_line (pyRstripNewline raw)).fixed_line = some f →
        (process_srt_file lines).1[i]? = some (f ++ ['\n'])) ∧
    (((find_and_analyze_timestamp_line (pyRstripNewline raw)).is_timestamp_line &&
      (find_and_analyze_timestamp_line (pyRstripNewline raw)).needs_fixing) = false →
      (process_srt_file lines).1[i]? = some raw) := by
  constructor
  · intro hts hnf f hf
    rw [process_output_get hg, emitLine_of_fix hts hnf hf]
  · intro hno
    rw [process_output_get hg, emitLine_of_nofix hno]

/-- C10 witness: a concrete fixed line originally terminated by a carriage
return and newline is emitted with a single newline. -/
theorem C10_terminator_witness :
    (process_srt_file [("1:02,003 --> 2:03,004".toList ++ ['\r', '\n'])]).1[0]? =
      some ("00:01:02,003 --> 00:02:03,004".toList ++ ['\n']) :=
  (C10_terminator [("1:02,003 --> 2:03,004".toList ++ ['\r', '\n'])] 0
    ("1:02,003 --> 2:03,004".toList ++ ['\r', '\n']) (by decide)).1
    (by decide) (by decide) ("00:01:02,003 --> 00:02:03,004".toList) (by decide)

end SrtFixer
